import Mathlib

/-!
# Verification of `openforcefield/utils/utils.py`

A shallow embedding, in Lean 4, of the utility subroutines of
`openforcefield/utils/utils.py`, together with proofs and refutations of the
specified properties.

Modelling conventions:

* An 8-byte floating-point value is represented by its 64-bit bit pattern
  (a `Nat` below `2 ^ 64`); two doubles are numerically equal whenever their
  bit patterns coincide (`-0.0/0.0` and NaNs aside, which the concrete
  examples below avoid: all concrete bit patterns used are distinct finite
  doubles).
* A numpy `ndarray` of dtype `float64` is a shape, a raw byte buffer (its
  C-contiguous memory, row-major), and the byte order stored in its dtype.
  `ndarray.newbyteorder` changes only that dtype flag, never the memory —
  exactly as in numpy; `tobytes` dumps the raw memory.
* The platform's native byte order is an explicit parameter `native`.
* Python exceptions become `Except` / `Option` values.
-/

/-- Byte order of a multi-byte encoding: little- or big-endian. -/
inductive ByteOrder where
  | little : ByteOrder
  | big : ByteOrder
deriving DecidableEq, Repr

/-- The 8 bytes of the 64-bit word `w`, least significant byte first. -/
def word64BytesLE (w : Nat) : List Nat :=
  (List.range 8).map (fun i => w / 256 ^ i % 256)

/-- The 8 bytes of the 64-bit word `w` in the given byte order. -/
def word64Bytes : ByteOrder → Nat → List Nat
  | .little, w => word64BytesLE w
  | .big, w => (word64BytesLE w).reverse

/-- Read a little-endian byte list back into a natural number. -/
def bytesToWordLE (bs : List Nat) : Nat :=
  bs.foldr (fun b acc => b + 256 * acc) 0

/-- Read a byte list as a 64-bit word in the given byte order. -/
def bytesToWord : ByteOrder → List Nat → Nat
  | .little, bs => bytesToWordLE bs
  | .big, bs => bytesToWordLE bs.reverse

/-- Chunking with explicit fuel (structural recursion, so the kernel can
evaluate it on concrete buffers). -/
def chunkAux : Nat → List Nat → List (List Nat)
  | 0, _ => []
  | _, [] => []
  | fuel + 1, b :: rest => ((b :: rest).take 8) :: chunkAux fuel ((b :: rest).drop 8)

/-- Split a byte list into consecutive chunks of 8 bytes (the per-element
slices of a `float64` buffer). -/
def chunk8 (l : List Nat) : List (List Nat) :=
  chunkAux l.length l

/-- A numpy `float64` ndarray: its shape, its raw C-contiguous (row-major)
memory bytes, and the byte order recorded in its dtype.  The element values
are an *interpretation* of the buffer through the dtype's byte order. -/
structure PyNDArray where
  shape : List Nat
  buffer : List Nat
  dtypeOrder : ByteOrder
deriving DecidableEq, Repr

/-- Well-formedness of a `float64` array: the buffer holds exactly 8 bytes
per element, elements counted by the product of the shape. -/
def PyNDArray.wf (a : PyNDArray) : Prop :=
  a.buffer.length = 8 * a.shape.prod

instance (a : PyNDArray) : Decidable a.wf := by
  unfold PyNDArray.wf; infer_instance

/-- The element values of the array (as 64-bit bit patterns), in row-major
order: each 8-byte slice of the buffer read through the dtype's byte order. -/
def PyNDArray.values (a : PyNDArray) : List Nat :=
  (chunk8 a.buffer).map (bytesToWord a.dtypeOrder)

/-- `ndarray.newbyteorder(order)`: a view of the *same* memory whose dtype
carries the new byte order.  The data bytes are unchanged; only their
interpretation changes. -/
def PyNDArray.newbyteorder (a : PyNDArray) (o : ByteOrder) : PyNDArray :=
  { a with dtypeOrder := o }

/-- `ndarray.tobytes()`: the raw memory bytes in C (row-major) order.  It
dumps memory as stored, ignoring the dtype's byte-order flag. -/
def PyNDArray.tobytes (a : PyNDArray) : List Nat :=
  a.buffer

/-- A numpy dtype: byte order plus item size in bytes. -/
structure Dtype where
  order : ByteOrder
  itemsize : Nat
deriving DecidableEq, Repr

/-- `np.dtype('float')`: `float64`, in the platform's native byte order. -/
def npDtypeFloat (native : ByteOrder) : Dtype :=
  { order := native, itemsize := 8 }

/-- `dtype.newbyteorder(order)`: dtypes are immutable; this *returns a new
dtype* with the requested byte order and leaves the receiver unchanged. -/
def Dtype.newbyteorder (dt : Dtype) (o : ByteOrder) : Dtype :=
  { dt with order := o }

/-- Errors raised by the numpy operations used here. -/
inductive NpError where
  | bufferSize : NpError
  | reshapeMismatch : NpError
deriving DecidableEq, Repr

/-- `np.frombuffer(bytes, dtype=dt)`: a 1-d array over the given bytes.
Raises if the byte count is not a multiple of the item size. -/
def npFrombuffer (bytes : List Nat) (dt : Dtype) : Except NpError PyNDArray :=
  if bytes.length % dt.itemsize ≠ 0 then
    .error .bufferSize
  else
    .ok { shape := [bytes.length / dt.itemsize], buffer := bytes, dtypeOrder := dt.order }

/-- `ndarray.reshape(shape)`: succeeds iff the element count matches the
product of the new shape. -/
def PyNDArray.reshape (a : PyNDArray) (shape : List Nat) : Except NpError PyNDArray :=
  if a.shape.prod = shape.prod then
    .ok { a with shape := shape }
  else
    .error .reshapeMismatch

/-- `serialize_numpy(np_array)` from the source:
```
bigendian_array = np_array.newbyteorder('>')
serialized = bigendian_array.tobytes()
shape = np_array.shape
return serialized, shape
```
-/
def serialize_numpy (np_array : PyNDArray) : List Nat × List Nat :=
  let bigendian_array := np_array.newbyteorder .big
  let serialized := bigendian_array.tobytes
  let shape := np_array.shape
  (serialized, shape)

/-- `deserialize_numpy(serialized_np, shape)` from the source:
```
dt = np.dtype('float')
dt.newbyteorder('>') # set to big-endian
np_array = np.frombuffer(serialized_np, dtype=dt)
np_array = np_array.reshape(shape)
return np_array
```
The result of `dt.newbyteorder('>')` is discarded, exactly as in the source
(numpy dtypes are immutable, so `dt` keeps the native byte order). -/
def deserialize_numpy (native : ByteOrder) (serialized_np : List Nat) (shape : List Nat) :
    Except NpError PyNDArray :=
  let dt := npDtypeFloat native
  let _ := dt.newbyteorder .big
  match npFrombuffer serialized_np dt with
  | .error e => .error e
  | .ok np_array => np_array.reshape shape

/-! ## Object store: `serialize_numpy` at the level of array objects

Python arrays are heap objects; to state that `serialize_numpy` does not
mutate its argument we run it over an explicit store of array objects.
References are indices into the store; `ndarray.newbyteorder` allocates a
fresh view object at the end of the store. -/

/-- A placeholder array used as the default of out-of-range lookups. -/
def defaultArray : PyNDArray :=
  { shape := [], buffer := [], dtypeOrder := .little }

/-- `np_array.newbyteorder('>')` as a store operation: allocate a fresh view
object (new dtype flag, same data) and return its reference. -/
def newbyteorderSt (σ : List PyNDArray) (r : Nat) (o : ByteOrder) :
    List PyNDArray × Nat :=
  (σ ++ [(σ.getD r defaultArray).newbyteorder o], σ.length)

/-- `arr.tobytes()` as a store operation: read the referenced object. -/
def tobytesSt (σ : List PyNDArray) (r : Nat) : List Nat :=
  (σ.getD r defaultArray).tobytes

/-- `serialize_numpy` run over the object store: the byte-order view is taken
on a separate, freshly allocated object; the argument object is only read. -/
def serialize_numpy_st (σ : List PyNDArray) (r : Nat) :
    (List Nat × List Nat) × List PyNDArray :=
  let (σ1, bigendian_ref) := newbyteorderSt σ r .big
  let serialized := tobytesSt σ1 bigendian_ref
  let shape := (σ1.getD r defaultArray).shape
  ((serialized, shape), σ1)

/-! ## Python exceptions and the filesystem model -/

/-- Exceptions: an arbitrary user exception raised by a context-manager body,
or an `OSError`/`FileNotFoundError` for a missing path. -/
inductive PyExc where
  | userExc : Nat → PyExc
  | fileNotFoundError : String → PyExc
deriving DecidableEq, Repr

/-! ## `temporary_cd`

The process state is the current working directory plus an opaque remainder
(`world`).  The set of existing directories is an environment `fs`, fixed for
the duration of the scope; `os.chdir` fails on a path not in it.  A context
body is an arbitrary state transformer that may also raise. -/

/-- Process state: current working directory plus opaque further state. -/
structure Proc where
  cwd : String
  world : Nat
deriving DecidableEq, Repr

/-- Test for an absolute POSIX path: the first character is a slash.
(Stated over the character list so that it evaluates by `decide`.) -/
def isAbsolutePath (p : String) : Bool :=
  p.data.head? == some '/'

/-- `os.path.abspath`, restricted to the path shapes used here: an absolute
path is kept, a relative one is resolved against the current directory. -/
def os_path_abspath (cwd p : String) : String :=
  if isAbsolutePath p then p else cwd ++ "/" ++ p

/-- `os.chdir`: set the working directory, failing if the target is not an
existing directory. -/
def os_chdir (fs : List String) (path : String) (s : Proc) : Except PyExc Proc :=
  if path ∈ fs then .ok { s with cwd := path } else .error (.fileNotFoundError path)

/-- `temporary_cd(dir_path)` from the source:
```
prev_dir = os.getcwd()
os.chdir(os.path.abspath(dir_path))
try:
    yield
finally:
    os.chdir(prev_dir)
```
The body runs between the two `chdir`s; its exception, if any, propagates
after the `finally` block.  An exception in the `finally` `chdir` replaces it. -/
def temporary_cd (fs : List String) (dir_path : String)
    (body : Proc → Proc × Option PyExc) (s : Proc) : Proc × Option PyExc :=
  let prev_dir := s.cwd
  match os_chdir fs (os_path_abspath s.cwd dir_path) s with
  | .error e => (s, some e)
  | .ok s1 =>
    let (s2, exc) := body s1
    match os_chdir fs prev_dir s2 with
    | .ok s3 => (s3, exc)
    | .error e => (s2, some e)

/-! ## `temporary_directory`

Here the body may create and delete files, so the filesystem (the list of
existing paths) is part of the state, together with a counter from which
`tempfile.mkdtemp` draws fresh names. -/

/-- Filesystem state: the existing paths and the temp-name counter. -/
structure Fs where
  paths : List String
  tmpCounter : Nat
deriving DecidableEq, Repr

/-- The name `mkdtemp` gives to the `n`-th temporary directory. -/
def tmpName (n : Nat) : String :=
  "/tmp/tmp" ++ toString n

/-- `tempfile.mkdtemp()`: create a new, uniquely named directory under the
platform temp root and return its path. -/
def mkdtemp (s : Fs) : String × Fs :=
  let name := tmpName s.tmpCounter
  (name, { paths := name :: s.paths, tmpCounter := s.tmpCounter + 1 })

/-- `q` lies strictly inside directory `p`. -/
def pathUnderB (p q : String) : Bool :=
  (p ++ "/").data.isPrefixOf q.data

/-- `shutil.rmtree(p)`: recursively delete `p` and everything inside it;
raises `FileNotFoundError` if `p` does not exist. -/
def shutil_rmtree (p : String) (s : Fs) : Except PyExc Fs :=
  if p ∈ s.paths then
    .ok { s with paths := s.paths.filter (fun q => !(q == p || pathUnderB p q)) }
  else
    .error (.fileNotFoundError p)

/-- `temporary_directory()` from the source:
```
tmp_dir = tempfile.mkdtemp()
try:
    yield tmp_dir
finally:
    shutil.rmtree(tmp_dir)
```
The body receives the yielded path; its exception, if any, propagates after
the `finally` block, and an exception raised by `rmtree` replaces it. -/
def temporary_directory (body : String → Fs → Fs × Option PyExc) (s : Fs) :
    Fs × Option PyExc :=
  let (tmp_dir, s1) := mkdtemp s
  let (s2, exc) := body tmp_dir s1
  match shutil_rmtree tmp_dir s2 with
  | .ok s3 => (s3, exc)
  | .error e => (s2, some e)

/-! ## `get_data_filename`

`pkg_resources.resource_filename` and `os.path.exists` are external
collaborators, modelled as an environment. -/

/-- Environment of `get_data_filename`: the installed package's resource
resolver and the filesystem existence test. -/
structure ResourceEnv where
  resource_filename : String → String → String
  existsPath : String → Bool

/-- `os.path.join` for the two-argument shapes used here. -/
def os_path_join (a b : String) : String :=
  if isAbsolutePath b then b else a ++ "/" ++ b

/-- `get_data_filename(relative_path)` from the source:
```
fn = resource_filename('openforcefield', os.path.join('data', relative_path))
if not os.path.exists(fn):
    raise ValueError("Sorry! %s does not exist. If you just added it, you'll have to re-install" % fn)
return fn
```
The `ValueError` is modelled as `Except.error` carrying its message. -/
def get_data_filename (env : ResourceEnv) (relative_path : String) :
    Except String String :=
  let fn := env.resource_filename "openforcefield" (os_path_join "data" relative_path)
  if env.existsPath fn then
    .ok fn
  else
    .error ("Sorry! " ++ fn ++ " does not exist. If you just added it, you'll have to re-install")

/-! ## `inherit_docstrings`

A class is modelled by its method-resolution order, here a single-inheritance
chain: the list of own-attribute dictionaries, most-derived first, each
mapping an attribute name to that function's `__doc__` (`Option String`,
`none` being Python `None`).  For a chain, the MRO of the `i`-th entry is the
`i`-th suffix, as in Python's single-inheritance linearization.  Attribute
lookup (`getattr` / `hasattr`) walks the chain. -/

/-- The own attributes of one class: function name to its docstring. -/
abbrev ClassDict := List (String × Option String)

/-- `getattr(cls, name).__doc__` along the MRO chain: `none` when the
attribute is absent, `some doc` when found with docstring `doc`. -/
def getattrDoc : List ClassDict → String → Option (Option String)
  | [], _ => none
  | d :: rest, name =>
    match d.lookup name with
    | some doc => some doc
    | none => getattrDoc rest name

/-- `hasattr(cls, name)` along the MRO chain. -/
def hasattrChain (chain : List ClassDict) (name : String) : Bool :=
  (getattrDoc chain name).isSome

/-- Python truthiness of a docstring: `None` and `""` are falsy. -/
def truthyDoc : Option String → Bool
  | none => false
  | some s => !(s == "")

/-- The parents `cls.__mro__[1:]`, each paired with its own MRO view: the
proper, nonempty suffixes of the chain, longest first. -/
def parentViews (chain : List ClassDict) : List (List ClassDict) :=
  match chain with
  | [] => []
  | _ :: rest => rest.tails.dropLast

/-- The inner loop of `inherit_docstrings`:
```
for parent in cls.__mro__[1:]:
    if hasattr(parent, name):
        func.__doc__ = getattr(parent, name).__doc__
```
Each parent that has the attribute overwrites the docstring in turn (the
source has no `break`). -/
def docLoop (name : String) : List (List ClassDict) → Option String → Option String
  | [], doc => doc
  | p :: rest, doc =>
    docLoop name rest (if hasattrChain p name then (getattrDoc p name).getD none else doc)

/-- The docstring a member function named `name`, currently carrying `doc`,
has after `inherit_docstrings` runs on the class with the given MRO chain:
a truthy docstring is kept (`if func.__doc__: continue`), otherwise the
parent loop runs. -/
def inherit_docstrings_doc (chain : List ClassDict) (name : String)
    (doc : Option String) : Option String :=
  if truthyDoc doc then doc else docLoop name (parentViews chain) doc

/-- The member names of the class: every attribute name appearing anywhere
along the MRO chain (what `getmembers` enumerates), without duplicates. -/
def classMembers (chain : List ClassDict) : List String :=
  (chain.flatMap (fun d => d.map Prod.fst)).dedup

/-- `inherit_docstrings(cls)`: the resulting docstring of every member,
member by member. -/
def inherit_docstrings (chain : List ClassDict) : List (String × Option String) :=
  (classMembers chain).map
    (fun name => (name, inherit_docstrings_doc chain name ((getattrDoc chain name).getD none)))

/-- Rendering of the claim's words, for comparison with the code: the
docstring of the *first* ancestor in MRO order that has the attribute. -/
def firstAncestorDoc (name : String) : List (List ClassDict) → Option (Option String)
  | [] => none
  | p :: rest =>
    if hasattrChain p name then some ((getattrDoc p name).getD none)
    else firstAncestorDoc name rest

/-- The claim's version of `inherit_docstrings_doc`: keep a present docstring,
otherwise take the first ancestor's. -/
def spec_inherit_docstrings_doc (chain : List ClassDict) (name : String)
    (doc : Option String) : Option String :=
  if truthyDoc doc then doc
  else (firstAncestorDoc name (parentViews chain)).getD doc

/-- The docstring of the *last* ancestor in MRO order that has the attribute —
what the code actually leaves behind, since every match overwrites. -/
def lastAncestorDoc (name : String) : List (List ClassDict) → Option (Option String)
  | [] => none
  | p :: rest =>
    match lastAncestorDoc name rest with
    | some d => some d
    | none => if hasattrChain p name then some ((getattrDoc p name).getD none) else none

/-! ## `all_subclasses`

The live class graph: class `i`'s direct subclasses are `subs[i]` (out of
range: none).  Python's class registration graph is acyclic; we fix a
topological numbering, so every direct subclass has a larger index than its
superclass — this is what lets the recursion of `all_subclasses` terminate,
just as acyclicity does at run time in Python. -/

/-- The class graph: direct-subclass lists under a topological numbering. -/
structure ClassGraph where
  subs : List (List Nat)
  increasing : ∀ (i : Fin subs.length) (m : Nat), m ∈ subs.get i → i.val < m

/-- `cls.__subclasses__()`: the direct subclasses of class `c`. -/
def ClassGraph.children (g : ClassGraph) (c : Nat) : List Nat :=
  g.subs.getD c []

/-- The recursion of `all_subclasses`, with explicit fuel so that it is
structural (and hence kernel-evaluable); `all_subclasses` instantiates the
fuel with a bound on the recursion depth, and
`all_subclasses_eq` below shows the fuel is invisible: the function
satisfies exactly the source's recursion. -/
def allSubclassesAux (g : ClassGraph) : Nat → Nat → List Nat
  | 0, _ => []
  | fuel + 1, c => g.children c ++ (g.children c).flatMap (fun s => allSubclassesAux g fuel s)

/-- `all_subclasses(cls)` from the source:
```
return cls.__subclasses__() + [g for s in cls.__subclasses__() for g in all_subclasses(s)]
```
-/
def all_subclasses (g : ClassGraph) (c : Nat) : List Nat :=
  allSubclassesAux g (g.subs.length + 1 - c) c

/-- Transitive reachability in the subclass graph: `Subclass g c m` means `m`
is a direct or indirect subclass of `c`. -/
inductive Subclass (g : ClassGraph) : Nat → Nat → Prop
  | direct {c m : Nat} : m ∈ g.children c → Subclass g c m
  | step {c s m : Nat} : s ∈ g.children c → Subclass g s m → Subclass g c m

/-! ## Concrete instances used by the witnesses and counterexamples -/

/-- Quick error test on the result of `deserialize_numpy`. -/
def isErrorB : Except NpError PyNDArray → Bool
  | .error _ => true
  | .ok _ => false

/-- The bit pattern of the double `1.0`: `0x3FF0000000000000`. -/
def oneBits : Nat := 0x3FF0000000000000

/-- What `np.array([1.0])` holds on a little-endian platform: one element,
stored in the native (little-endian) byte order. -/
def exArrLE : PyNDArray :=
  { shape := [1], buffer := word64Bytes .little oneBits, dtypeOrder := .little }

/-- What `np.array([1.0], dtype='>f8')` holds on a little-endian platform:
the same single element, but stored big-endian — still an 8-byte
floating-point array. -/
def exArrBE : PyNDArray :=
  { shape := [1], buffer := word64Bytes .big oneBits, dtypeOrder := .big }

/-- The byte string the specification says `serialize_numpy` produces: each
element value encoded big-endian, row-major. -/
def specSerializeBytes (a : PyNDArray) : List Nat :=
  a.values.flatMap (word64Bytes .big)

/-- An empty array of shape `(0,)`. -/
def exArrEmpty : PyNDArray :=
  { shape := [0], buffer := [], dtypeOrder := .little }

/-- A rank-0 array holding the double `2.0` (bit pattern
`0x4000000000000000`). -/
def exArrRank0 : PyNDArray :=
  { shape := [], buffer := word64Bytes .little 0x4000000000000000, dtypeOrder := .little }

/-- Directory tree for the `temporary_cd` witness. -/
def exDirs : List String := ["/", "/home/user", "/tmp"]

/-- Initial process state for the `temporary_cd` witness. -/
def exProc : Proc := { cwd := "/home/user", world := 0 }

/-- A `temporary_cd` body that does some work and then raises. -/
def exCdBody : Proc → Proc × Option PyExc :=
  fun p => ({ p with world := 7 }, some (PyExc.userExc 3))

/-- Initial filesystem for the `temporary_directory` witness. -/
def exFs : Fs := { paths := ["/", "/tmp"], tmpCounter := 0 }

/-- A `temporary_directory` body that creates a file inside the temporary
directory and then raises. -/
def exTmpBody : String → Fs → Fs × Option PyExc :=
  fun tmp_dir fs =>
    ({ fs with paths := (tmp_dir ++ "/data.txt") :: fs.paths }, some (PyExc.userExc 1))

/-- Resource environment for the `get_data_filename` witness: one installed
data file. -/
def exEnv : ResourceEnv :=
  { resource_filename := fun pkg rel => "/site-packages/" ++ pkg ++ "/" ++ rel,
    existsPath := fun p => p == "/site-packages/openforcefield/data/forcefield.xml" }

/-- An MRO chain `C < B < A` in which `C.f` has no docstring, `B.f` has
docstring `"b"` and `A.f` has docstring `"a"`. -/
def exChain : List ClassDict :=
  [[("f", none)], [("f", some "b")], [("f", some "a")]]

/-- A diamond in the class graph: class `0` has direct subclasses `1` and
`2`, and `3` subclasses both of them. -/
def exDiamond : ClassGraph :=
  { subs := [[1, 2], [3], [3], []], increasing := by decide }

/-- Store holding the single argument array of the frame-effect witness. -/
def exStore : List PyNDArray := [exArrLE]

/-! # Theorems -/

/-- C1 (amended): round-trip of the codec.  For every well-formed 8-byte
floating-point array whose dtype byte order is the platform's native order
(the order of every array built without an explicit byte-order override),
`deserialize_numpy` applied to the byte string and shape returned by
`serialize_numpy` returns an array equal — in particular element-wise
equal — to the original. -/
theorem deserialize_serialize_roundtrip (native : ByteOrder) (A : PyNDArray)
    (hwf : A.wf) (hord : A.dtypeOrder = native) :
    deserialize_numpy native (serialize_numpy A).1 (serialize_numpy A).2 = Except.ok A := by
  obtain ⟨shape, buffer, ord⟩ := A
  simp only [PyNDArray.wf] at hwf
  obtain rfl : ord = native := hord
  have h8 : buffer.length % 8 = 0 := by omega
  have hq : buffer.length / 8 = shape.prod := by omega
  simp [serialize_numpy, deserialize_numpy, npFrombuffer, npDtypeFloat,
    PyNDArray.newbyteorder, PyNDArray.tobytes, PyNDArray.reshape, h8, hq]

/-- C1 witness: the round-trip at `np.array([1.0])` on a little-endian
platform. -/
theorem deserialize_serialize_roundtrip_witness :
    PyNDArray.wf exArrLE ∧
    deserialize_numpy .little (serialize_numpy exArrLE).1 (serialize_numpy exArrLE).2 =
      Except.ok exArrLE :=
  ⟨by decide, deserialize_serialize_roundtrip .little exArrLE (by decide) rfl⟩

/-- C1 counterexample: the claim quantifies over *every* 8-byte
floating-point array, but an array whose dtype is big-endian on a
little-endian platform (`np.array([1.0], dtype='>f8')`, bit pattern
`0x3FF0000000000000`) does not round-trip: the code emits its raw bytes
unswapped and reads them back in native order, yielding the single element
`0xF03F = 61503` — a different finite double — instead of `1.0`. -/
theorem roundtrip_fails_on_nonnative_byte_order :
    PyNDArray.wf exArrBE ∧
    (deserialize_numpy .little (serialize_numpy exArrBE).1 (serialize_numpy exArrBE).2).map
      PyNDArray.values = Except.ok [61503] ∧
    exArrBE.values = [oneBits] ∧ (61503 : Nat) ≠ oneBits := by
  exact ⟨by decide, rfl, rfl, by decide⟩

/-- C2: the byte string `serialize_numpy` actually produces on a
little-endian platform is the little-endian (native) encoding of the
elements, not the big-endian one the code's comments and the spec intend:
`ndarray.newbyteorder` changes only the dtype flag, never the memory, and
the dtype returned by `dt.newbyteorder('>')` is discarded, so
`deserialize_numpy` likewise reads native-order bytes.  Feeding the
big-endian encoding of `[1.0]` to `deserialize_numpy` yields `0xF03F = 61503`,
not `1.0`. -/
theorem serialize_numpy_uses_native_byte_order :
    exArrLE.values = [oneBits] ∧
    (serialize_numpy exArrLE).1 = word64Bytes .little oneBits ∧
    specSerializeBytes exArrLE = word64Bytes .big oneBits ∧
    (serialize_numpy exArrLE).1 ≠ specSerializeBytes exArrLE ∧
    (deserialize_numpy .little (specSerializeBytes exArrLE) [1]).map PyNDArray.values =
      Except.ok [61503] ∧
    (61503 : Nat) ≠ oneBits := by
  exact ⟨rfl, rfl, rfl, by decide, rfl, by decide⟩

/-- C5: whenever the byte string's length differs from 8 times the product
of the shape, `deserialize_numpy` fails (either `np.frombuffer` rejects a
length that is not a multiple of the 8-byte item size, or `reshape` rejects
the element-count mismatch) rather than returning an array. -/
theorem deserialize_numpy_size_mismatch_fails (native : ByteOrder)
    (bytes shape : List Nat) (h : bytes.length ≠ 8 * shape.prod) :
    isErrorB (deserialize_numpy native bytes shape) = true := by
  by_cases h8 : bytes.length % 8 = 0
  · have hq : bytes.length / 8 ≠ shape.prod := by omega
    simp [deserialize_numpy, npFrombuffer, npDtypeFloat, PyNDArray.reshape, h8, hq, isErrorB]
  · simp [deserialize_numpy, npFrombuffer, npDtypeFloat, h8, isErrorB]

/-- C5 witness: a 4-byte string against shape `(1,)` (not a multiple of 8)
and a 16-byte string against shape `(1,)` (element-count mismatch) both
fail. -/
theorem deserialize_numpy_size_mismatch_fails_witness :
    ([0, 0, 0, 0] : List Nat).length ≠ 8 * ([1] : List Nat).prod ∧
    isErrorB (deserialize_numpy .little [0, 0, 0, 0] [1]) = true ∧
    (List.replicate 16 (0 : Nat)).length ≠ 8 * ([1] : List Nat).prod ∧
    isErrorB (deserialize_numpy .little (List.replicate 16 0) [1]) = true :=
  ⟨by decide, deserialize_numpy_size_mismatch_fails .little [0, 0, 0, 0] [1] (by decide),
    by decide, deserialize_numpy_size_mismatch_fails .little (List.replicate 16 0) [1] (by decide)⟩

/-- C6: for every well-formed 8-byte array — any rank, zero dimensions
included — `serialize_numpy` returns a byte string of length
`8 * product(shape)` together with the array's own shape. -/
theorem serialize_numpy_length_shape (A : PyNDArray) (hwf : A.wf) :
    (serialize_numpy A).1.length = 8 * A.shape.prod ∧ (serialize_numpy A).2 = A.shape :=
  ⟨hwf, rfl⟩

/-- C6 witness: the empty array of shape `(0,)` and a rank-0 scalar array. -/
theorem serialize_numpy_length_shape_witness :
    PyNDArray.wf exArrEmpty ∧
    (serialize_numpy exArrEmpty).1.length = 8 * exArrEmpty.shape.prod ∧
    (serialize_numpy exArrEmpty).2 = [0] ∧
    PyNDArray.wf exArrRank0 ∧
    (serialize_numpy exArrRank0).1.length = 8 * exArrRank0.shape.prod ∧
    (serialize_numpy exArrRank0).2 = [] :=
  ⟨by decide, (serialize_numpy_length_shape exArrEmpty (by decide)).1,
    (serialize_numpy_length_shape exArrEmpty (by decide)).2,
    by decide, (serialize_numpy_length_shape exArrRank0 (by decide)).1,
    (serialize_numpy_length_shape exArrRank0 (by decide)).2⟩

/-- C10: run over the object store, `serialize_numpy` leaves the argument
object untouched — the store entry at the argument's reference is unchanged
(hence so are its element values, shape, dtype byte order and raw bytes),
the returned pair is a pure function of the argument's value, and the
byte-order view is a separate, freshly allocated object. -/
theorem serialize_numpy_st_preserves_argument (σ : List PyNDArray) (r : Nat)
    (h : r < σ.length) :
    ((serialize_numpy_st σ r).2).getD r defaultArray = σ.getD r defaultArray ∧
    ((serialize_numpy_st σ r).2).length = σ.length + 1 ∧
    (serialize_numpy_st σ r).1 = serialize_numpy (σ.getD r defaultArray) ∧
    (newbyteorderSt σ r .big).2 ≠ r := by
  refine ⟨List.getD_append _ _ _ _ h, by simp [serialize_numpy_st, newbyteorderSt], ?_,
    Nat.ne_of_gt h⟩
  have hv : (σ ++ [(σ.getD r defaultArray).newbyteorder .big]).getD σ.length defaultArray =
      (σ.getD r defaultArray).newbyteorder .big := by
    rw [List.getD_append_right _ _ _ _ le_rfl]
    simp
  have hr : (σ ++ [(σ.getD r defaultArray).newbyteorder .big]).getD r defaultArray =
      σ.getD r defaultArray := List.getD_append _ _ _ _ h
  have h3 : (serialize_numpy_st σ r).1 =
      (((σ ++ [(σ.getD r defaultArray).newbyteorder .big]).getD σ.length
          defaultArray).tobytes,
        ((σ ++ [(σ.getD r defaultArray).newbyteorder .big]).getD r defaultArray).shape) := rfl
  rw [h3, hv, hr]
  rfl

/-- C10 witness: a one-object store holding `np.array([1.0])`. -/
theorem serialize_numpy_st_preserves_argument_witness :
    ((serialize_numpy_st exStore 0).2).getD 0 defaultArray = exArrLE ∧
    (serialize_numpy_st exStore 0).1 = serialize_numpy exArrLE :=
  ⟨(serialize_numpy_st_preserves_argument exStore 0 (by decide)).1,
    (serialize_numpy_st_preserves_argument exStore 0 (by decide)).2.2.1⟩

/-- C3: for every entry path that resolves to an existing directory, and
every body — returning normally or raising — `temporary_cd` leaves the
working directory exactly as it was before entry, and the body's outcome
propagates unchanged.  (`hcwd` is the standing process invariant that the
current working directory is itself an existing directory, which is what
lets the `finally` `chdir` succeed; the directory tree `fs` is fixed for
the duration of the scope.) -/
theorem temporary_cd_restores_cwd (fs : List String) (dir_path : String)
    (body : Proc → Proc × Option PyExc) (s : Proc)
    (hdir : os_path_abspath s.cwd dir_path ∈ fs) (hcwd : s.cwd ∈ fs) :
    ((temporary_cd fs dir_path body s).1).cwd = s.cwd ∧
    (temporary_cd fs dir_path body s).2 =
      (body { s with cwd := os_path_abspath s.cwd dir_path }).2 := by
  rcases hB : body { s with cwd := os_path_abspath s.cwd dir_path } with ⟨s2, exc⟩
  simp [temporary_cd, os_chdir, hdir, hcwd, hB]

/-- C3 witness: entering `/tmp` from `/home/user` with a body that mutates
the state and raises; the working directory is restored and the exception
propagates. -/
theorem temporary_cd_restores_cwd_witness :
    ((temporary_cd exDirs "/tmp" exCdBody exProc).1).cwd = "/home/user" ∧
    (temporary_cd exDirs "/tmp" exCdBody exProc).2 = some (PyExc.userExc 3) := by
  have h := temporary_cd_restores_cwd exDirs "/tmp" exCdBody exProc (by decide) (by decide)
  exact ⟨h.1, h.2.trans rfl⟩

/-- C4: after `temporary_directory` exits — the body returning normally or
raising — the yielded path no longer exists, and nothing under it remains
either.  The one frame condition (`horphan`) says the body cannot delete the
temporary directory itself while leaving contents orphaned inside it, which
no sequence of real filesystem operations can do. -/
theorem temporary_directory_deletes_tmp (body : String → Fs → Fs × Option PyExc) (s : Fs)
    (horphan : (mkdtemp s).1 ∉ ((body (mkdtemp s).1 (mkdtemp s).2).1).paths →
      ∀ q ∈ ((body (mkdtemp s).1 (mkdtemp s).2).1).paths,
        pathUnderB (mkdtemp s).1 q = false) :
    (mkdtemp s).1 ∉ ((temporary_directory body s).1).paths ∧
    ∀ q ∈ ((temporary_directory body s).1).paths, pathUnderB (mkdtemp s).1 q = false := by
  rcases hB : body (mkdtemp s).1 (mkdtemp s).2 with ⟨s2, exc⟩
  rw [hB] at horphan
  have hT : temporary_directory body s =
      match shutil_rmtree (mkdtemp s).1 s2 with
      | .ok s3 => (s3, exc)
      | .error e => (s2, some e) := by
    show (match body (mkdtemp s).1 (mkdtemp s).2 with
      | (s2, exc) =>
        match shutil_rmtree (mkdtemp s).1 s2 with
        | .ok s3 => (s3, exc)
        | .error e => (s2, some e)) = _
    rw [hB]
  by_cases hmem : (mkdtemp s).1 ∈ s2.paths
  · have hR : shutil_rmtree (mkdtemp s).1 s2 =
        .ok { s2 with
          paths := (s2.paths.filter
            (fun q => !(q == (mkdtemp s).1 || pathUnderB (mkdtemp s).1 q))) } := by
      simp [shutil_rmtree, hmem]
    rw [hT, hR]
    constructor
    · intro hq
      rcases List.mem_filter.mp hq with ⟨-, hpred⟩
      simp at hpred
    · intro q hq
      rcases List.mem_filter.mp hq with ⟨-, hpred⟩
      simp at hpred
      exact hpred.2
  · have hR : shutil_rmtree (mkdtemp s).1 s2 =
        .error (.fileNotFoundError (mkdtemp s).1) := by
      simp [shutil_rmtree, hmem]
    rw [hT, hR]
    exact ⟨hmem, horphan hmem⟩

/-- C4 witness: a body that creates a file inside the temporary directory
and raises; afterwards neither the directory nor the file inside it
exists. -/
theorem temporary_directory_deletes_tmp_witness :
    "/tmp/tmp0" ∉ ((temporary_directory exTmpBody exFs).1).paths ∧
    "/tmp/tmp0/data.txt" ∉ ((temporary_directory exTmpBody exFs).1).paths := by
  have h := temporary_directory_deletes_tmp exTmpBody exFs
    (fun hn => absurd (by decide) hn)
  exact ⟨h.1, fun hmem => absurd (h.2 _ hmem) (by decide)⟩

/-- C7: `get_data_filename` resolves the relative path against the installed
package's data directory; when the resolved path exists it is returned, when
it does not a `ValueError` is raised whose message contains the resolved
path — and an error is raised in no other case. -/
theorem get_data_filename_spec (env : ResourceEnv) (rp : String) :
    (env.existsPath (env.resource_filename "openforcefield" (os_path_join "data" rp)) = true →
      get_data_filename env rp =
        Except.ok (env.resource_filename "openforcefield" (os_path_join "data" rp))) ∧
    (env.existsPath (env.resource_filename "openforcefield" (os_path_join "data" rp)) = false →
      get_data_filename env rp = Except.error
        ("Sorry! " ++ env.resource_filename "openforcefield" (os_path_join "data" rp) ++
          " does not exist. If you just added it, you'll have to re-install")) ∧
    ∀ msg, get_data_filename env rp = Except.error msg →
      env.existsPath (env.resource_filename "openforcefield" (os_path_join "data" rp)) = false ∧
      (env.resource_filename "openforcefield" (os_path_join "data" rp)).data <:+: msg.data := by
  refine ⟨fun hex => ?_, fun hex => ?_, fun msg hmsg => ?_⟩
  · simp [get_data_filename, hex]
  · simp [get_data_filename, hex]
  · by_cases hex : env.existsPath (env.resource_filename "openforcefield" (os_path_join "data" rp))
    · simp [get_data_filename, hex] at hmsg
    · refine ⟨by simpa using hex, ?_⟩
      simp [get_data_filename, hex] at hmsg
      refine ⟨"Sorry! ".data,
        " does not exist. If you just added it, you'll have to re-install".data, ?_⟩
      rw [← hmsg]
      simp [String.data_append]

/-- C7 witness: the one installed data file is returned; a missing file
raises the `ValueError` with the resolved path inside its message. -/
theorem get_data_filename_spec_witness :
    get_data_filename exEnv "forcefield.xml" =
      Except.ok "/site-packages/openforcefield/data/forcefield.xml" ∧
    get_data_filename exEnv "missing.xml" = Except.error
      "Sorry! /site-packages/openforcefield/data/missing.xml does not exist. If you just added it, you'll have to re-install" := by
  have h1 := (get_data_filename_spec exEnv "forcefield.xml").1 (by decide)
  have h2 := (get_data_filename_spec exEnv "missing.xml").2.1 (by decide)
  exact ⟨h1.trans rfl, h2.trans rfl⟩

/-- The parent loop of `inherit_docstrings` keeps the docstring of the
*last* ancestor that has the attribute (every match overwrites), falling
back to the initial docstring when no ancestor has it. -/
theorem docLoop_eq_lastAncestorDoc (name : String) (parents : List (List ClassDict)) :
    ∀ doc, docLoop name parents doc = (lastAncestorDoc name parents).getD doc := by
  induction parents with
  | nil => intro doc; rfl
  | cons p rest ih =>
    intro doc
    simp only [docLoop]
    rw [ih]
    cases hl : lastAncestorDoc name rest with
    | some d => simp [lastAncestorDoc, hl]
    | none =>
      by_cases hh : hasattrChain p name
      · simp [lastAncestorDoc, hl, hh]
      · simp [lastAncestorDoc, hl, hh]

/-- C8 counterexample: in the chain `C < B < A` with `C.f` undocumented,
`B.f` documented `"b"` and `A.f` documented `"a"`, the claim predicts the
first ancestor's `"b"`; the code's inner loop has no `break`, so every
ancestor overwrites in turn and `A`'s `"a"` — the last ancestor's — wins. -/
theorem inherit_docstrings_takes_last_not_first :
    inherit_docstrings_doc exChain "f" none = some "a" ∧
    spec_inherit_docstrings_doc exChain "f" none = some "b" ∧
    inherit_docstrings_doc exChain "f" none ≠ spec_inherit_docstrings_doc exChain "f" none ∧
    inherit_docstrings exChain = [("f", some "a")] := by
  exact ⟨rfl, rfl, by decide, rfl⟩

/-- C8 (amended): `inherit_docstrings` leaves a callable with a truthy
(non-`None`, non-empty) docstring unchanged; a callable without one gets
the docstring of the *last* ancestor in method-resolution order that has an
attribute of the same name — each matching ancestor overwrites the previous
one — and keeps its docstring when no ancestor has the attribute. -/
theorem inherit_docstrings_doc_spec (chain : List ClassDict) (name : String)
    (doc : Option String) :
    (truthyDoc doc = true → inherit_docstrings_doc chain name doc = doc) ∧
    (truthyDoc doc = false →
      inherit_docstrings_doc chain name doc =
        (lastAncestorDoc name (parentViews chain)).getD doc) := by
  constructor
  · intro h
    simp [inherit_docstrings_doc, h]
  · intro h
    simp [inherit_docstrings_doc, h, docLoop_eq_lastAncestorDoc]

/-- C8 witness: a documented member is untouched; an undocumented member
receives the last matching ancestor's docstring. -/
theorem inherit_docstrings_doc_spec_witness :
    inherit_docstrings_doc exChain "f" (some "keep") = some "keep" ∧
    inherit_docstrings_doc exChain "f" none =
      (lastAncestorDoc "f" (parentViews exChain)).getD none :=
  ⟨(inherit_docstrings_doc_spec exChain "f" (some "keep")).1 rfl,
    (inherit_docstrings_doc_spec exChain "f" none).2 rfl⟩

/-- Every member of a direct-subclass list lies strictly above its class in
the topological numbering, and the class itself lies inside the graph. -/
theorem ClassGraph.lt_of_mem_children (g : ClassGraph) {c m : Nat}
    (h : m ∈ g.children c) : c < m ∧ c < g.subs.length := by
  by_cases hc : c < g.subs.length
  · refine ⟨?_, hc⟩
    have h' : m ∈ g.subs.getD c [] := h
    rw [List.getD_eq_getElem _ _ hc] at h'
    exact g.increasing ⟨c, hc⟩ m (by rw [List.get_eq_getElem]; exact h')
  · exfalso
    have hch : g.subs.getD c [] = [] :=
      List.getD_eq_default _ _ (Nat.le_of_not_lt hc)
    have h' : m ∈ g.subs.getD c [] := h
    rw [hch] at h'
    exact List.not_mem_nil m h'

/-- The fuel of `allSubclassesAux` is irrelevant once it covers the
recursion depth. -/
theorem allSubclassesAux_fuel_eq (g : ClassGraph) :
    ∀ f1 f2 c, g.subs.length + 1 - c ≤ f1 → g.subs.length + 1 - c ≤ f2 →
      allSubclassesAux g f1 c = allSubclassesAux g f2 c := by
  intro f1
  induction f1 with
  | zero =>
    intro f2 c h1 h2
    have hch : g.children c = [] := List.getD_eq_default _ _ (by omega)
    cases f2 with
    | zero => rfl
    | succ f2 => simp [allSubclassesAux, hch]
  | succ f1 ih =>
    intro f2 c h1 h2
    cases f2 with
    | zero =>
      have hch : g.children c = [] := List.getD_eq_default _ _ (by omega)
      simp [allSubclassesAux, hch]
    | succ f2 =>
      simp only [allSubclassesAux]
      congr 1
      refine List.flatMap_congr (fun s hs => ?_)
      obtain ⟨hlt, hin⟩ := ClassGraph.lt_of_mem_children g hs
      exact ih f2 s (by omega) (by omega)

/-- `all_subclasses` satisfies exactly the source's recursion:
`cls.__subclasses__() + [g for s in cls.__subclasses__() for g in all_subclasses(s)]`. -/
theorem all_subclasses_eq (g : ClassGraph) (c : Nat) :
    all_subclasses g c =
      g.children c ++ (g.children c).flatMap (fun s => all_subclasses g s) := by
  unfold all_subclasses
  cases hk : g.subs.length + 1 - c with
  | zero =>
    have hch : g.children c = [] := List.getD_eq_default _ _ (by omega)
    simp [allSubclassesAux, hch]
  | succ k =>
    simp only [allSubclassesAux]
    congr 1
    refine List.flatMap_congr (fun s hs => ?_)
    obtain ⟨hlt, hin⟩ := ClassGraph.lt_of_mem_children g hs
    exact allSubclassesAux_fuel_eq g k (g.subs.length + 1 - s) s (by omega) le_rfl

/-- C9 (amended): `all_subclasses` is sound and complete for transitive
reachability — its result contains a class iff that class is a direct or
indirect subclass of the argument — but it is a list that can repeat a
class reachable along several inheritance paths (see the diamond
counterexample). -/
theorem all_subclasses_mem_iff (g : ClassGraph) (c m : Nat) :
    m ∈ all_subclasses g c ↔ Subclass g c m := by
  have key : ∀ k c, g.subs.length + 1 - c ≤ k →
      (m ∈ all_subclasses g c ↔ Subclass g c m) := by
    intro k
    induction k with
    | zero =>
      intro c hc
      have hch : g.children c = [] := List.getD_eq_default _ _ (by omega)
      rw [all_subclasses_eq, hch]
      simp only [List.nil_append, List.flatMap_nil]
      constructor
      · intro h
        exact absurd h (List.not_mem_nil m)
      · intro h
        cases h with
        | direct hd => rw [hch] at hd; exact absurd hd (List.not_mem_nil m)
        | step hs hsub => rw [hch] at hs; exact absurd hs (List.not_mem_nil _)
    | succ k ih =>
      intro c hc
      rw [all_subclasses_eq, List.mem_append, List.mem_flatMap]
      constructor
      · rintro (hd | ⟨s, hs, hm⟩)
        · exact Subclass.direct hd
        · obtain ⟨hlt, hin⟩ := ClassGraph.lt_of_mem_children g hs
          exact Subclass.step hs ((ih s (by omega)).mp hm)
      · intro h
        cases h with
        | direct hd => exact Or.inl hd
        | step hs hsub =>
          obtain ⟨hlt, hin⟩ := ClassGraph.lt_of_mem_children g hs
          exact Or.inr ⟨_, hs, (ih _ (by omega)).mpr hsub⟩
  exact key (g.subs.length + 1 - c) c le_rfl

/-- C9 counterexample: in the diamond `1, 2 < 0` and `3 < 1, 2`, the class
`3` appears twice in `all_subclasses 0` — the result is not duplicate-free,
refuting "no subclass appears more than once". -/
theorem all_subclasses_repeats_in_diamond :
    all_subclasses exDiamond 0 = [1, 2, 3, 3] ∧
    (all_subclasses exDiamond 0).count 3 = 2 := by
  exact ⟨rfl, rfl⟩

/-- C9 witness: soundness/completeness instantiated in the diamond graph. -/
theorem all_subclasses_mem_iff_witness :
    (3 ∈ all_subclasses exDiamond 0 ↔ Subclass exDiamond 0 3) ∧
    3 ∈ all_subclasses exDiamond 0 :=
  ⟨all_subclasses_mem_iff exDiamond 0 3, by decide⟩
